import Mathlib

/-!
Verification of the `fx_api` exchange-rate client.

Shallow embedding of `fx_api/api.py` (the packaged, tested implementation of
the `FX` class; the standalone legacy script `fx_api/fx_api.py` is not
importable as a package module) together with `fx_api/helpers.py`.

Python dynamic values that can reach the constructor are modelled by `PyVal`;
pandas DataFrames are modelled as a list of column names together with an
index-labelled list of rows; the HTTP transport is an explicit oracle mapping
each request to a status code and a parsed JSON body.
-/

namespace FxApi

/-- Python values relevant to the client's dynamically typed arguments:
strings, integers, booleans, `None`, and lists. -/
inductive PyVal where
  | str (s : String)
  | int (n : Int)
  | bool (b : Bool)
  | none
  | list (xs : List PyVal)

/-- `isinstance(v, str)`. -/
def PyVal.isStr : PyVal → Bool
  | .str _ => true
  | _ => false

/-- Python truthiness (`if target_currency:`): empty string, zero, `False`,
`None` and the empty list are falsy. -/
def PyVal.truthy : PyVal → Bool
  | .str s => !s.data.isEmpty
  | .int n => n != 0
  | .bool b => b
  | .none => false
  | .list xs => !xs.isEmpty

/-- `fx_api/helpers.py`: `is_string_or_list_of_strings(obj)` — true for a
string, or for a `list` all of whose items are strings; false otherwise. -/
def is_string_or_list_of_strings : PyVal → Bool
  | .str _ => true
  | .list xs => xs.all PyVal.isStr
  | _ => false

/-- The exceptions the client can raise: `TypeError`, `ValueError`, and
`requests.HTTPError` from `response.raise_for_status()` carrying the
HTTP status code. -/
inductive FXError where
  | typeError
  | valueError
  | httpError (status : Nat)
deriving DecidableEq, Repr

/-- The `FX` instance state: the two attributes set by `__init__`.
Python attributes are dynamically typed, so both are `PyVal`. -/
structure FX where
  source_currency : PyVal
  target_currency : PyVal

/-- The wrapping applied by `__init__` after validation:
`if isinstance(x, str): self.x = [x] else: self.x = x`. -/
def pyWrapStr : PyVal → PyVal
  | .str s => .list [.str s]
  | v => v

/-- `FX.__init__(source_currency, target_currency)`: validates
`source_currency` with `is_string_or_list_of_strings`, validates
`target_currency` the same way but only when it is truthy
(`if target_currency:`), then wraps bare strings into one-element lists. -/
def FX.init (source_currency target_currency : PyVal) : Except FXError FX :=
  if !is_string_or_list_of_strings source_currency then
    .error .typeError
  else if target_currency.truthy && !is_string_or_list_of_strings target_currency then
    .error .typeError
  else
    .ok ⟨pyWrapStr source_currency, pyWrapStr target_currency⟩

/-- `FX()` with Python's default arguments `source_currency="GBP"`,
`target_currency=None`. -/
def FX.initDefault : Except FXError FX :=
  FX.init (.str "GBP") .none

/-- The strings held by a stored `source_currency` attribute.  After a
successful `FX.init` the attribute is always a list of strings and the
Python loop `for source_currency in self.source_currency` visits exactly
these, in order. -/
def strItems : PyVal → List String
  | .list xs => xs.filterMap fun v => match v with | .str s => some s | _ => Option.none
  | _ => []

/-! ## Date validation (`datetime.strptime(date, "%Y-%m-%d")`)

CPython's `_strptime` matches `%Y` as four digits, `%m` as
`1[0-2]|0[1-9]|[1-9]`, `%d` as `3[01]|[12]\d|0[1-9]|[1-9]`, anchored, with
no unconverted data allowed, and then `datetime(year, month, day)` checks
the day against the month length and that the year is at least 1.
Digits are modelled as ASCII `0-9`. -/

/-- Python's `s.split(sep)` for a single-character separator. -/
def pySplit (s : String) (sep : Char) : List String :=
  (s.data.splitOn sep).map String.mk

/-- Decimal value of a digit string, as `int()` computes it. -/
def digitsToNat (cs : List Char) : Nat :=
  cs.foldl (fun n c => 10 * n + (c.toNat - '0'.toNat)) 0

/-- `%Y`: exactly four digits. -/
def matchY (s : String) : Option Nat :=
  if s.data.length == 4 && s.data.all Char.isDigit then some (digitsToNat s.data)
  else Option.none

/-- `%m`: `1[0-2]|0[1-9]|[1-9]` — one digit `1-9`, or two digits `01`-`12`. -/
def matchM (s : String) : Option Nat :=
  if !s.data.all Char.isDigit then Option.none
  else
    let n := digitsToNat s.data
    if (s.data.length == 1 && decide (1 ≤ n)) ||
       (s.data.length == 2 && decide (1 ≤ n) && decide (n ≤ 12)) then some n
    else Option.none

/-- `%d`: `3[01]|[12]\d|0[1-9]|[1-9]` — one digit `1-9`, or two digits `01`-`31`. -/
def matchD (s : String) : Option Nat :=
  if !s.data.all Char.isDigit then Option.none
  else
    let n := digitsToNat s.data
    if (s.data.length == 1 && decide (1 ≤ n)) ||
       (s.data.length == 2 && decide (1 ≤ n) && decide (n ≤ 31)) then some n
    else Option.none

/-- Gregorian leap year, as used by `datetime`. -/
def isLeap (y : Nat) : Bool :=
  y % 4 == 0 && (y % 100 != 0 || y % 400 == 0)

/-- Number of days in a month, as validated by `datetime(year, month, day)`. -/
def daysInMonth (y m : Nat) : Nat :=
  if m == 2 then (if isLeap y then 29 else 28)
  else if m == 4 || m == 6 || m == 9 || m == 11 then 30 else 31

/-- `True` iff `datetime.strptime(s, "%Y-%m-%d")` succeeds: the string is
`Y-M-D` with the three fields matching the strptime patterns and naming a
real calendar date. -/
def parseDate (s : String) : Bool :=
  match pySplit s '-' with
  | [ys, ms, ds] =>
    match matchY ys, matchM ms, matchD ds with
    | some y, some m, some d => decide (1 ≤ y) && decide (d ≤ daysInMonth y m)
    | _, _, _ => false
  | _ => false

/-! ## DataFrame model -/

/-- One output row: the four columns produced by every query method. -/
structure Row where
  date : String
  source_currency : String
  target_currency : String
  exchange_rate_to_target : Rat
deriving DecidableEq, Repr

/-- A pandas DataFrame specialised to this client: ordered column names and
rows carrying their integer index labels. -/
structure DataFrame where
  cols : List String
  rows : List (Nat × Row)
deriving DecidableEq, Repr

/-- The column order every method produces. -/
def the_columns : List String :=
  ["date", "source_currency", "target_currency", "exchange_rate_to_target"]

/-- Python string `<`: lexicographic comparison of the code-point sequences,
a strict prefix comparing below its extensions. -/
def strLt : List Char → List Char → Bool
  | [], [] => false
  | [], _ :: _ => true
  | _ :: _, [] => false
  | c :: cs, d :: ds => decide (c < d) || (c == d && strLt cs ds)

/-- Python string `<` on `String`. -/
def pyStrLt (a b : String) : Bool :=
  strLt a.data b.data

/-- The pandas `sort_values(by=["date", "source_currency", "target_currency"],
ascending=True)` comparison: lexicographic on the three key columns, ties
allowed. -/
def rowLE (a b : Row) : Bool :=
  pyStrLt a.date b.date || (a.date == b.date &&
    (pyStrLt a.source_currency b.source_currency || (a.source_currency == b.source_currency &&
      (pyStrLt a.target_currency b.target_currency || a.target_currency == b.target_currency))))

/-- `sort_values(...)`: reorder the rows by `rowLE`, keeping index labels
attached to their rows. -/
def DataFrame.sort_values (df : DataFrame) : DataFrame :=
  ⟨df.cols, df.rows.mergeSort fun p q => rowLE p.2 q.2⟩

/-- `reset_index(drop=True)`: relabel the rows `0, 1, 2, ...`. -/
def DataFrame.reset_index (df : DataFrame) : DataFrame :=
  ⟨df.cols, (df.rows.map Prod.snd).enum⟩

/-- The tail of every query method: the master DataFrame accumulated with
`append(..., ignore_index=True)` (labels `0..n-1`, the four columns), then
`sort_values` by the key triple, then `reset_index(drop=True)`. -/
def finalizeDF (rows : List Row) : DataFrame :=
  DataFrame.reset_index (DataFrame.sort_values ⟨the_columns, rows.enum⟩)

/-! ## HTTP model -/

/-- `requests.get` query parameters: `base` and `symbols` always,
`start_at`/`end_at` only for the history endpoint. `symbols` is passed the
stored `target_currency` attribute as-is. -/
structure Params where
  base : String
  symbols : PyVal
  start_at : Option String
  end_at : Option String

/-- An HTTP GET request: url and query parameters. -/
structure Request where
  url : String
  params : Params

/-- `FX.base_url`. -/
def base_url : String := "https://api.exchangeratesapi.io"

/-- JSON body of the `/latest` and `/{date}` endpoints:
`{base, date, rates: {TARGET: rate}}`, the rates in key order. -/
structure RatesBody where
  base : String
  date : String
  rates : List (String × Rat)
deriving DecidableEq, Repr

/-- JSON body of the `/history` endpoint:
`{base, rates: {DATE: {TARGET: rate}}}`, both levels in key order. -/
structure HistoryBody where
  base : String
  rates : List (String × List (String × Rat))
deriving DecidableEq, Repr

/-- The request issued inside `get_FX_latest`/`get_FX_date` for one source
currency: `params = {"base": source_currency, "symbols": self.target_currency}`. -/
def mkRatesReq (url : String) (tgt : PyVal) (src : String) : Request :=
  ⟨url, ⟨src, tgt, Option.none, Option.none⟩⟩

/-- The request issued inside `get_FX_date_range` for one source currency:
`params = {"base": ..., "symbols": ..., "start_at": start_at, "end_at": end_at}`. -/
def mkHistoryReq (tgt : PyVal) (sa ea : String) (src : String) : Request :=
  ⟨base_url ++ "/history", ⟨src, tgt, some sa, some ea⟩⟩

/-! ## Response flattening

`pd.json_normalize` turns the body into one wide row with columns
`date`, `base` (renamed `source_currency`) and `rates.<TARGET>` (one level)
or `rates.<DATE>.<TARGET>` (two levels, history endpoint); `melt` then emits
one long row per `rates.*` column in column order, and the target (and, for
history, the date) is recovered by `.str.split(".", expand=True)` taking
field 1 (and 2). -/

/-- Flatten a `/latest` or `/{date}` body: one row per rates key, `date` and
`source_currency` taken from the body's own `date` and `base` fields, the
target recovered from the column name `"rates." + TARGET` split on `"."`. -/
def flattenRates (b : RatesBody) : List Row :=
  b.rates.map fun tp =>
    ⟨b.date, b.base, (pySplit ("rates." ++ tp.1) '.').getD 1 "", tp.2⟩

/-- Flatten a `/history` body: one row per (date key, target key) pair, both
recovered from the column name `"rates." + DATE + "." + TARGET` split on
`"."` (fields 1 and 2). -/
def flattenHistory (b : HistoryBody) : List Row :=
  (b.rates.map fun dp => dp.2.map fun tp =>
    let parts := pySplit ("rates." ++ dp.1 ++ "." ++ tp.1) '.'
    Row.mk (parts.getD 1 "") b.base (parts.getD 2 "") tp.2).flatten

/-! ## The three query methods

Each is modelled as: instance, method arguments, and a transport oracle
`net` in; the (unchanged) instance, the trace of issued requests in order,
and either an error or the final DataFrame out.  The per-source loop stops
at the first response whose status fails `raise_for_status()`
(4xx/5xx, i.e. status ≥ 400). -/

/-- The per-source-currency loop, written out identically in all three query
methods: issue the request for each source currency in order, stop with the
`raise_for_status()` exception at the first response whose status is 4xx/5xx,
otherwise flatten the body and append the rows to the master DataFrame.
`mk` builds the request for a source currency and `flat` is the
endpoint-specific JSON flattening. -/
def runLoop {β : Type} (mk : String → Request) (flat : β → List Row)
    (net : Request → Nat × β) :
    List String → List Request × Except FXError (List Row)
  | [] => ([], .ok [])
  | src :: rest =>
    let req := mk src
    if 400 ≤ (net req).1 then
      ([req], .error (.httpError (net req).1))
    else
      match runLoop mk flat net rest with
      | (reqs, .ok rows) => (req :: reqs, .ok (flat (net req).2 ++ rows))
      | (reqs, .error err) => (req :: reqs, .error err)

/-- The loop of `get_FX_latest` and `get_FX_date`. -/
def runRatesLoop (url : String) (tgt : PyVal) (net : Request → Nat × RatesBody) :
    List String → List Request × Except FXError (List Row) :=
  runLoop (mkRatesReq url tgt) flattenRates net

/-- The loop of `get_FX_date_range`. -/
def runHistoryLoop (tgt : PyVal) (sa ea : String) (net : Request → Nat × HistoryBody) :
    List String → List Request × Except FXError (List Row) :=
  runLoop (mkHistoryReq tgt sa ea) flattenHistory net

/-- `FX.get_FX_latest(self)`. -/
def FX.get_FX_latest (inst : FX) (net : Request → Nat × RatesBody) :
    FX × List Request × Except FXError DataFrame :=
  let r := runRatesLoop (base_url ++ "/latest") inst.target_currency net (strItems inst.source_currency)
  (inst, r.1, r.2.map finalizeDF)

/-- `FX.get_FX_date(self, date)`: `TypeError` if `date` is not a string,
`ValueError` if `strptime` rejects it — both before any request — then the
same loop and flatten as `get_FX_latest` against the `/{date}` endpoint. -/
def FX.get_FX_date (inst : FX) (dateArg : PyVal) (net : Request → Nat × RatesBody) :
    FX × List Request × Except FXError DataFrame :=
  match dateArg with
  | .str d =>
    if parseDate d then
      let r := runRatesLoop (base_url ++ "/" ++ d) inst.target_currency net (strItems inst.source_currency)
      (inst, r.1, r.2.map finalizeDF)
    else (inst, [], .error .valueError)
  | _ => (inst, [], .error .typeError)

/-- `FX.get_FX_date_range(self, start_at, end_at)`: validates `start_at`
(type then format), then `end_at` (type then format), before any request;
then the history loop and two-level flatten. -/
def FX.get_FX_date_range (inst : FX) (startArg endArg : PyVal)
    (net : Request → Nat × HistoryBody) :
    FX × List Request × Except FXError DataFrame :=
  match startArg with
  | .str sa =>
    if parseDate sa then
      match endArg with
      | .str ea =>
        if parseDate ea then
          let r := runHistoryLoop inst.target_currency sa ea net (strItems inst.source_currency)
          (inst, r.1, r.2.map finalizeDF)
        else (inst, [], .error .valueError)
      | _ => (inst, [], .error .typeError)
    else (inst, [], .error .valueError)
  | _ => (inst, [], .error .typeError)


/-! ## Order lemmas -/

theorem strLt_trichotomy (cs ds : List Char) : strLt cs ds ∨ cs = ds ∨ strLt ds cs := by
  induction cs generalizing ds with
  | nil => cases ds <;> simp [strLt]
  | cons c cs ih =>
    cases ds with
    | nil => simp [strLt]
    | cons d ds =>
      rcases lt_trichotomy c d with h | h | h
      · left; simp [strLt, h]
      · subst h
        rcases ih ds with h2 | h2 | h2
        · left; simp [strLt, h2]
        · right; left; rw [h2]
        · right; right; simp [strLt, h2]
      · right; right; simp [strLt, h]

theorem strLt_trans {cs ds es : List Char} (h1 : strLt cs ds) (h2 : strLt ds es) :
    strLt cs es := by
  induction cs generalizing ds es with
  | nil =>
    cases es with
    | nil =>
      cases ds with
      | nil => exact absurd h1 (by simp [strLt])
      | cons d ds => exact absurd h2 (by simp [strLt])
    | cons e es => simp [strLt]
  | cons c cs ih =>
    cases ds with
    | nil => exact absurd h1 (by simp [strLt])
    | cons d ds =>
      cases es with
      | nil => exact absurd h2 (by simp [strLt])
      | cons e es =>
        simp only [strLt, Bool.or_eq_true, Bool.and_eq_true, decide_eq_true_eq,
          beq_iff_eq] at h1 h2 ⊢
        rcases h1 with h1 | ⟨rfl, h1⟩
        · rcases h2 with h2 | ⟨rfl, h2⟩
          · exact Or.inl (lt_trans h1 h2)
          · exact Or.inl h1
        · rcases h2 with h2 | ⟨rfl, h2⟩
          · exact Or.inl h2
          · exact Or.inr ⟨rfl, ih h1 h2⟩

theorem pyStrLt_trans {a b c : String} (h1 : pyStrLt a b) (h2 : pyStrLt b c) :
    pyStrLt a c :=
  strLt_trans h1 h2

theorem pyStrLt_trichotomy (a b : String) : pyStrLt a b ∨ a = b ∨ pyStrLt b a := by
  rcases strLt_trichotomy a.data b.data with h | h | h
  · exact Or.inl h
  · refine Or.inr (Or.inl ?_)
    cases a; cases b; exact congrArg String.mk h
  · exact Or.inr (Or.inr h)

theorem rowLE_total (a b : Row) : rowLE a b || rowLE b a := by
  simp only [rowLE, Bool.or_eq_true, Bool.and_eq_true, beq_iff_eq]
  rcases pyStrLt_trichotomy a.date b.date with h | h | h
  · exact Or.inl (Or.inl h)
  · rcases pyStrLt_trichotomy a.source_currency b.source_currency with h2 | h2 | h2
    · exact Or.inl (Or.inr ⟨h, Or.inl h2⟩)
    · rcases pyStrLt_trichotomy a.target_currency b.target_currency with h3 | h3 | h3
      · exact Or.inl (Or.inr ⟨h, Or.inr ⟨h2, Or.inl h3⟩⟩)
      · exact Or.inl (Or.inr ⟨h, Or.inr ⟨h2, Or.inr h3⟩⟩)
      · exact Or.inr (Or.inr ⟨h.symm, Or.inr ⟨h2.symm, Or.inl h3⟩⟩)
    · exact Or.inr (Or.inr ⟨h.symm, Or.inl h2⟩)
  · exact Or.inr (Or.inl h)

theorem rowLE_trans {a b c : Row} (h1 : rowLE a b) (h2 : rowLE b c) : rowLE a c := by
  simp only [rowLE, Bool.or_eq_true, Bool.and_eq_true, beq_iff_eq] at h1 h2 ⊢
  rcases h1 with h1 | ⟨e1, h1⟩
  · rcases h2 with h2 | ⟨e2, h2⟩
    · exact Or.inl (pyStrLt_trans h1 h2)
    · rw [← e2]; exact Or.inl h1
  · rcases h2 with h2 | ⟨e2, h2⟩
    · rw [e1]; exact Or.inl h2
    · refine Or.inr ⟨e1.trans e2, ?_⟩
      rcases h1 with h1 | ⟨f1, h1⟩
      · rcases h2 with h2 | ⟨f2, h2⟩
        · exact Or.inl (pyStrLt_trans h1 h2)
        · rw [← f2]; exact Or.inl h1
      · rcases h2 with h2 | ⟨f2, h2⟩
        · rw [f1]; exact Or.inl h2
        · refine Or.inr ⟨f1.trans f2, ?_⟩
          rcases h1 with h1 | h1
          · rcases h2 with h2 | h2
            · exact Or.inl (pyStrLt_trans h1 h2)
            · rw [← h2]; exact Or.inl h1
          · rcases h2 with h2 | h2
            · rw [h1]; exact Or.inl h2
            · exact Or.inr (h1.trans h2)

/-! ## DataFrame pipeline lemmas -/

theorem pairwise_enum {α : Type} {R : α → α → Prop} {l : List α} (h : l.Pairwise R) :
    l.enum.Pairwise fun p q => R p.2 q.2 := by
  have h2 : (l.enum.map Prod.snd).Pairwise R := by rw [List.enum_map_snd]; exact h
  exact List.pairwise_map.mp h2

theorem finalizeDF_cols (rows : List Row) : (finalizeDF rows).cols = the_columns := rfl

theorem finalizeDF_dense (rows : List Row) :
    (finalizeDF rows).rows.map Prod.fst = List.range (finalizeDF rows).rows.length := by
  simp [finalizeDF, DataFrame.reset_index, DataFrame.sort_values, List.enum_map_fst]

theorem finalizeDF_sorted (rows : List Row) :
    (finalizeDF rows).rows.Pairwise fun p q => rowLE p.2 q.2 := by
  have hs : (rows.enum.mergeSort fun p q => rowLE p.2 q.2).Pairwise
      fun p q => rowLE p.2 q.2 :=
    @List.sorted_mergeSort (Nat × Row) (fun p q => rowLE p.2 q.2)
      (fun a b c hab hbc => rowLE_trans hab hbc)
      (fun a b => rowLE_total a.2 b.2) rows.enum
  have hm : ((rows.enum.mergeSort fun p q => rowLE p.2 q.2).map Prod.snd).Pairwise
      (fun a b => rowLE a b = true) :=
    List.pairwise_map.mpr hs
  exact @pairwise_enum Row (fun a b => rowLE a b = true)
    ((rows.enum.mergeSort fun p q => rowLE p.2 q.2).map Prod.snd) hm

theorem finalizeDF_perm (rows : List Row) :
    ((finalizeDF rows).rows.map Prod.snd).Perm rows := by
  unfold finalizeDF DataFrame.reset_index DataFrame.sort_values
  rw [List.enum_map_snd]
  exact ((List.mergeSort_perm _ _).map Prod.snd).trans (List.Perm.of_eq (List.enum_map_snd _))

/-! ## Loop lemmas -/

theorem runLoop_all_ok {β : Type} (mk : String → Request) (flat : β → List Row)
    (net : Request → Nat × β) (srcs : List String)
    (h : ∀ s ∈ srcs, (net (mk s)).1 < 400) :
    runLoop mk flat net srcs =
      (srcs.map mk, .ok ((srcs.map fun s => flat (net (mk s)).2).flatten)) := by
  induction srcs with
  | nil => rfl
  | cons s rest ih =>
    have hs : ¬ 400 ≤ (net (mk s)).1 := by
      have := h s (by simp)
      omega
    simp only [runLoop]
    rw [if_neg hs, ih fun x hx => h x (by simp [hx])]
    simp

theorem runLoop_err {β : Type} (mk : String → Request) (flat : β → List Row)
    (net : Request → Nat × β) (srcs : List String)
    (h : ∃ s ∈ srcs, 400 ≤ (net (mk s)).1) :
    ∃ s ∈ srcs, 400 ≤ (net (mk s)).1 ∧
      (runLoop mk flat net srcs).2 = .error (.httpError (net (mk s)).1) := by
  induction srcs with
  | nil => simp at h
  | cons s rest ih =>
    by_cases hs : 400 ≤ (net (mk s)).1
    · refine ⟨s, by simp, hs, ?_⟩
      simp only [runLoop]
      rw [if_pos hs]
    · have h' : ∃ x ∈ rest, 400 ≤ (net (mk x)).1 := by
        rcases h with ⟨x, hx, hxs⟩
        rcases List.mem_cons.mp hx with rfl | hx'
        · exact absurd hxs hs
        · exact ⟨x, hx', hxs⟩
      rcases ih h' with ⟨x, hx, hxk, hres⟩
      refine ⟨x, by simp [hx], hxk, ?_⟩
      simp only [runLoop]
      rw [if_neg hs]
      rcases hm : runLoop mk flat net rest with ⟨reqs, res⟩
      rw [hm] at hres
      cases res with
      | ok rows => simp at hres
      | error e => simp at hres ⊢; exact hres

theorem runLoop_ok_inv {β : Type} {mk : String → Request} {flat : β → List Row}
    {net : Request → Nat × β} {srcs : List String} {rows : List Row}
    (h : (runLoop mk flat net srcs).2 = .ok rows) :
    rows = (srcs.map fun s => flat (net (mk s)).2).flatten := by
  induction srcs generalizing rows with
  | nil => simp [runLoop] at h; simp [h.symm]
  | cons s rest ih =>
    simp only [runLoop] at h
    by_cases hs : 400 ≤ (net (mk s)).1
    · rw [if_pos hs] at h; simp at h
    · rw [if_neg hs] at h
      rcases hm : runLoop mk flat net rest with ⟨reqs, res⟩
      rw [hm] at h
      cases res with
      | ok rows' =>
        simp at h
        have := ih (by rw [hm])
        simp [← h, this]
      | error e => simp at h

theorem except_map_finalize_ok {res : Except FXError (List Row)} {df : DataFrame}
    (h : res.map finalizeDF = .ok df) : ∃ rows, res = .ok rows ∧ df = finalizeDF rows := by
  cases res with
  | ok rows => exact ⟨rows, rfl, by simpa [Except.map] using h.symm⟩
  | error e => simp [Except.map] at h


/-! ## Result-shape helpers -/

theorem latest_ok_shape {inst : FX} {net : Request → Nat × RatesBody} {df : DataFrame}
    (h : (inst.get_FX_latest net).2.2 = .ok df) :
    ∃ rows, (runRatesLoop (base_url ++ "/latest") inst.target_currency net
        (strItems inst.source_currency)).2 = .ok rows ∧ df = finalizeDF rows := by
  exact except_map_finalize_ok h

theorem date_ok_shape {inst : FX} {d : String} {net : Request → Nat × RatesBody}
    {df : DataFrame} (h : (inst.get_FX_date (.str d) net).2.2 = .ok df) :
    parseDate d = true ∧
    ∃ rows, (runRatesLoop (base_url ++ "/" ++ d) inst.target_currency net
        (strItems inst.source_currency)).2 = .ok rows ∧ df = finalizeDF rows := by
  by_cases hd : parseDate d
  · refine ⟨hd, ?_⟩
    simp only [FX.get_FX_date, if_pos hd] at h
    exact except_map_finalize_ok h
  · simp only [FX.get_FX_date, if_neg hd] at h
    simp at h

theorem date_ok_nonstr {inst : FX} {v : PyVal} {net : Request → Nat × RatesBody}
    {df : DataFrame} (hv : v.isStr = false)
    (h : (inst.get_FX_date v net).2.2 = .ok df) : False := by
  cases v <;> simp [PyVal.isStr] at hv <;> simp [FX.get_FX_date] at h

theorem range_ok_shape {inst : FX} {sa ea : String} {net : Request → Nat × HistoryBody}
    {df : DataFrame} (h : (inst.get_FX_date_range (.str sa) (.str ea) net).2.2 = .ok df) :
    parseDate sa = true ∧ parseDate ea = true ∧
    ∃ rows, (runHistoryLoop inst.target_currency sa ea net
        (strItems inst.source_currency)).2 = .ok rows ∧ df = finalizeDF rows := by
  by_cases hs : parseDate sa
  · by_cases he : parseDate ea
    · refine ⟨hs, he, ?_⟩
      simp only [FX.get_FX_date_range, if_pos hs, if_pos he] at h
      exact except_map_finalize_ok h
    · simp only [FX.get_FX_date_range, if_pos hs, if_neg he] at h
      simp at h
  · simp only [FX.get_FX_date_range, if_neg hs] at h
    simp at h

/-- Any successful query result is a `finalizeDF`. -/
theorem any_query_ok_shape {inst : FX} {netR : Request → Nat × RatesBody}
    {netH : Request → Nat × HistoryBody} {dArg sArg eArg : PyVal} {df : DataFrame}
    (h : (inst.get_FX_latest netR).2.2 = .ok df ∨
         (inst.get_FX_date dArg netR).2.2 = .ok df ∨
         (inst.get_FX_date_range sArg eArg netH).2.2 = .ok df) :
    ∃ rows, df = finalizeDF rows := by
  rcases h with h | h | h
  · rcases latest_ok_shape h with ⟨rows, _, hdf⟩
    exact ⟨rows, hdf⟩
  · cases dArg with
    | str d =>
      rcases (date_ok_shape h).2 with ⟨rows, _, hdf⟩
      exact ⟨rows, hdf⟩
    | int n => exact absurd h (by simp [FX.get_FX_date])
    | bool b => exact absurd h (by simp [FX.get_FX_date])
    | none => exact absurd h (by simp [FX.get_FX_date])
    | list xs => exact absurd h (by simp [FX.get_FX_date])
  · cases sArg with
    | str sa =>
      cases eArg with
      | str ea =>
        rcases (range_ok_shape h).2.2 with ⟨rows, _, hdf⟩
        exact ⟨rows, hdf⟩
      | int n =>
        by_cases hs : parseDate sa <;>
          simp [FX.get_FX_date_range, hs] at h
      | bool b =>
        by_cases hs : parseDate sa <;>
          simp [FX.get_FX_date_range, hs] at h
      | none =>
        by_cases hs : parseDate sa <;>
          simp [FX.get_FX_date_range, hs] at h
      | list xs =>
        by_cases hs : parseDate sa <;>
          simp [FX.get_FX_date_range, hs] at h
    | int n => exact absurd h (by simp [FX.get_FX_date_range])
    | bool b => exact absurd h (by simp [FX.get_FX_date_range])
    | none => exact absurd h (by simp [FX.get_FX_date_range])
    | list xs => exact absurd h (by simp [FX.get_FX_date_range])


/-! ## Shared concrete test fixtures for witnesses -/

/-- A client holding one source currency `"GBP"` and no target filter. -/
def witInst : FX := ⟨.list [.str "GBP"], .none⟩

/-- A transport that answers every request with status 200 and a fixed
one-rate body dated `2020-03-13`. -/
def witNetR : Request → Nat × RatesBody :=
  fun _ => (200, ⟨"GBP", "2020-03-13", [("USD", 1)]⟩)

/-- A transport for the history endpoint: status 200, one date, one target. -/
def witNetH : Request → Nat × HistoryBody :=
  fun _ => (200, ⟨"GBP", [("2020-03-13", [("USD", 1)])]⟩)

/-- A transport that answers every request with status 404. -/
def witNetR404 : Request → Nat × RatesBody :=
  fun _ => (404, ⟨"GBP", "2020-03-13", []⟩)

/-- A history transport that answers every request with status 500. -/
def witNetH500 : Request → Nat × HistoryBody :=
  fun _ => (500, ⟨"GBP", []⟩)

/-- The single row produced from `witNetR`'s body. -/
def witRow : Row := ⟨"2020-03-13", "GBP", "USD", 1⟩

theorem witLatest_eval :
    (witInst.get_FX_latest witNetR).2.2 = .ok ⟨the_columns, [(0, witRow)]⟩ := by
  simp [FX.get_FX_latest, witInst, witNetR, strItems, runRatesLoop, runLoop,
    flattenRates, pySplit, finalizeDF, DataFrame.sort_values, DataFrame.reset_index,
    Except.map, witRow]
  decide

/-- Claim C1: every successful call to any of the three query operations returns
a table sorted ascending by (date, source_currency, target_currency) whose
row index is the dense sequence 0, 1, 2, ..., regardless of the endpoint. -/
theorem query_result_sorted_and_densely_indexed
    (inst : FX) (netR : Request → Nat × RatesBody) (netH : Request → Nat × HistoryBody)
    (dArg sArg eArg : PyVal) (df : DataFrame)
    (h : (inst.get_FX_latest netR).2.2 = .ok df ∨
         (inst.get_FX_date dArg netR).2.2 = .ok df ∨
         (inst.get_FX_date_range sArg eArg netH).2.2 = .ok df) :
    df.rows.map Prod.fst = List.range df.rows.length ∧
    df.rows.Pairwise fun p q => rowLE p.2 q.2 := by
  rcases any_query_ok_shape h with ⟨rows, rfl⟩
  exact ⟨finalizeDF_dense rows, finalizeDF_sorted rows⟩

theorem query_result_sorted_and_densely_indexed_witness :
    ((⟨the_columns, [(0, witRow)]⟩ : DataFrame).rows.map Prod.fst =
      List.range (⟨the_columns, [(0, witRow)]⟩ : DataFrame).rows.length) ∧
    (⟨the_columns, [(0, witRow)]⟩ : DataFrame).rows.Pairwise fun p q => rowLE p.2 q.2 :=
  query_result_sorted_and_densely_indexed witInst witNetR witNetH .none .none .none
    ⟨the_columns, [(0, witRow)]⟩ (Or.inl witLatest_eval)

/-- Claim C9: no query method mutates the instance: the configuration attributes
coming out of a call are exactly the ones that went in, for every instance,
every argument, and every transport behaviour (success or failure). -/
theorem query_preserves_config (inst : FX) (netR : Request → Nat × RatesBody)
    (netH : Request → Nat × HistoryBody) (dArg sArg eArg : PyVal) :
    (inst.get_FX_latest netR).1 = inst ∧
    (inst.get_FX_date dArg netR).1 = inst ∧
    (inst.get_FX_date_range sArg eArg netH).1 = inst := by
  refine ⟨rfl, ?_, ?_⟩
  · cases dArg <;> simp only [FX.get_FX_date] <;> first | rfl | (split <;> rfl)
  · cases sArg <;> simp only [FX.get_FX_date_range] <;> try rfl
    split
    · split <;> try rfl
      split <;> rfl
    · rfl

/-- Claim C7: default construction stores `["GBP"]` and `None`; a bare string
for either parameter is wrapped into a one-element list, and a list argument
is stored as given, in order. -/
theorem constructor_normalization :
    FX.initDefault = .ok ⟨.list [.str "GBP"], .none⟩ ∧
    (∀ (s : String) (t : PyVal) (inst : FX), FX.init (.str s) t = .ok inst →
      inst.source_currency = .list [.str s]) ∧
    (∀ (xs : List PyVal) (t : PyVal) (inst : FX), FX.init (.list xs) t = .ok inst →
      inst.source_currency = .list xs) ∧
    (∀ (sv : PyVal) (t : String) (inst : FX), FX.init sv (.str t) = .ok inst →
      inst.target_currency = .list [.str t]) ∧
    (∀ (sv : PyVal) (ys : List PyVal) (inst : FX), FX.init sv (.list ys) = .ok inst →
      inst.target_currency = .list ys) := by
  refine ⟨rfl, ?_, ?_, ?_, ?_⟩ <;>
    (intro a b inst h
     unfold FX.init at h
     split at h
     · simp at h
     · split at h
       · simp at h
       · simp only [Except.ok.injEq] at h
         subst h
         rfl)

theorem constructor_normalization_witness :
    ∃ inst : FX, FX.init (.str "USD") (.list [.str "CAD", .str "EUR"]) = .ok inst ∧
      inst.source_currency = .list [.str "USD"] ∧
      inst.target_currency = .list [.str "CAD", .str "EUR"] := by
  refine ⟨⟨.list [.str "USD"], .list [.str "CAD", .str "EUR"]⟩, rfl, ?_, ?_⟩
  · exact (constructor_normalization.2.1) "USD" (.list [.str "CAD", .str "EUR"]) _ rfl
  · exact (constructor_normalization.2.2.2.2) (.str "USD") [.str "CAD", .str "EUR"] _ rfl

/-- Claim C10: constructing with an empty source list succeeds, and every query
operation on that client issues no request and returns the empty table with
the four output columns. -/
theorem empty_source_list_queries_empty :
    FX.init (.list []) .none = .ok ⟨.list [], .none⟩ ∧
    (∀ netR : Request → Nat × RatesBody,
      FX.get_FX_latest ⟨.list [], .none⟩ netR =
        (⟨.list [], .none⟩, [], .ok ⟨the_columns, []⟩)) ∧
    (∀ (netR : Request → Nat × RatesBody) (d : String), parseDate d = true →
      FX.get_FX_date ⟨.list [], .none⟩ (.str d) netR =
        (⟨.list [], .none⟩, [], .ok ⟨the_columns, []⟩)) ∧
    (∀ (netH : Request → Nat × HistoryBody) (s e : String),
      parseDate s = true → parseDate e = true →
      FX.get_FX_date_range ⟨.list [], .none⟩ (.str s) (.str e) netH =
        (⟨.list [], .none⟩, [], .ok ⟨the_columns, []⟩)) := by
  refine ⟨rfl, ?_, ?_, ?_⟩
  · intro netR
    simp [FX.get_FX_latest, strItems, runRatesLoop, runLoop, finalizeDF,
      DataFrame.sort_values, DataFrame.reset_index, Except.map]
  · intro netR d hd
    simp [FX.get_FX_date, hd, strItems, runRatesLoop, runLoop, finalizeDF,
      DataFrame.sort_values, DataFrame.reset_index, Except.map]
  · intro netH s e hs he
    simp [FX.get_FX_date_range, hs, he, strItems, runHistoryLoop, runLoop, finalizeDF,
      DataFrame.sort_values, DataFrame.reset_index, Except.map]

theorem empty_source_list_queries_empty_witness :
    FX.get_FX_date ⟨.list [], .none⟩ (.str "2020-03-13") witNetR =
      (⟨.list [], .none⟩, [], .ok ⟨the_columns, []⟩) :=
  empty_source_list_queries_empty.2.2.1 witNetR "2020-03-13" (by decide)

/-- Claim C5 fails as stated: a falsy non-`None` target such as the integer `0`
skips validation entirely (`if target_currency:`), so construction succeeds
even though `0` is neither a string nor a list of strings and is not `None`. -/
theorem target_currency_falsy_skips_validation :
    FX.init (.str "GBP") (.int 0) = .ok ⟨.list [.str "GBP"], .int 0⟩ ∧
    is_string_or_list_of_strings (.int 0) = false ∧
    PyVal.int 0 ≠ PyVal.none :=
  ⟨rfl, rfl, fun h => PyVal.noConfusion h⟩

/-- Claim C5, amended: construction succeeds iff `source_currency` is a string
or list of strings, and `target_currency` is either falsy (`None`, `0`,
`False`, `""`, `[]` — only then is the check skipped) or itself a string or
list of strings. -/
theorem constructor_validation_amended (sv tv : PyVal) :
    (FX.init sv tv).isOk = true ↔
      (is_string_or_list_of_strings sv = true ∧
        (tv.truthy = false ∨ is_string_or_list_of_strings tv = true)) := by
  cases h1 : is_string_or_list_of_strings sv with
  | false => simp [FX.init, h1, Except.isOk, Except.toBool]
  | true =>
    cases h2 : tv.truthy with
    | false => simp [FX.init, h1, h2, Except.isOk, Except.toBool]
    | true =>
      cases h3 : is_string_or_list_of_strings tv with
      | false => simp [FX.init, h1, h2, h3, Except.isOk, Except.toBool]
      | true => simp [FX.init, h1, h2, h3, Except.isOk, Except.toBool]

/-- Claim C4: a non-string date argument yields `TypeError`, a string that fails
`strptime("%Y-%m-%d")` yields `ValueError` (with `start_at` checked before
`end_at` in `get_FX_date_range`), and in every such case the method returns
with an empty request trace — no HTTP request was issued. -/
theorem invalid_date_fails_before_any_request
    (inst : FX) (netR : Request → Nat × RatesBody) (netH : Request → Nat × HistoryBody) :
    (∀ v : PyVal, v.isStr = false →
      inst.get_FX_date v netR = (inst, [], .error .typeError)) ∧
    (∀ d : String, parseDate d = false →
      inst.get_FX_date (.str d) netR = (inst, [], .error .valueError)) ∧
    (∀ v w : PyVal, v.isStr = false →
      inst.get_FX_date_range v w netH = (inst, [], .error .typeError)) ∧
    (∀ (s : String) (w : PyVal), parseDate s = false →
      inst.get_FX_date_range (.str s) w netH = (inst, [], .error .valueError)) ∧
    (∀ (s : String) (w : PyVal), parseDate s = true → w.isStr = false →
      inst.get_FX_date_range (.str s) w netH = (inst, [], .error .typeError)) ∧
    (∀ (s e : String), parseDate s = true → parseDate e = false →
      inst.get_FX_date_range (.str s) (.str e) netH = (inst, [], .error .valueError)) := by
  refine ⟨?_, ?_, ?_, ?_, ?_, ?_⟩
  · intro v hv
    cases v <;> first | rfl | simp [PyVal.isStr] at hv
  · intro d hd
    simp [FX.get_FX_date, hd]
  · intro v w hv
    cases v <;> first | rfl | simp [PyVal.isStr] at hv
  · intro s w hs
    cases w <;> simp [FX.get_FX_date_range, hs]
  · intro s w hs hw
    cases w with
    | str t => simp [PyVal.isStr] at hw
    | int n => simp [FX.get_FX_date_range, hs]
    | bool b => simp [FX.get_FX_date_range, hs]
    | none => simp [FX.get_FX_date_range, hs]
    | list xs => simp [FX.get_FX_date_range, hs]
  · intro s e hs he
    simp [FX.get_FX_date_range, hs, he]

theorem invalid_date_fails_before_any_request_witness :
    (PyVal.int 5).isStr = false ∧
    witInst.get_FX_date (.int 5) witNetR = (witInst, [], .error .typeError) ∧
    parseDate "2019-07-63" = false ∧
    witInst.get_FX_date (.str "2019-07-63") witNetR = (witInst, [], .error .valueError) ∧
    witInst.get_FX_date_range (.str "2019-07-63") (.str "2020-01-01") witNetH =
      (witInst, [], .error .valueError) ∧
    witInst.get_FX_date_range (.str "2020-01-01") (.int 5) witNetH =
      (witInst, [], .error .typeError) := by
  have h := invalid_date_fails_before_any_request witInst witNetR witNetH
  exact ⟨rfl, h.1 _ rfl, by decide, h.2.1 _ (by decide),
    h.2.2.2.1 _ _ (by decide), h.2.2.2.2.1 _ _ (by decide) rfl⟩

/-- Claim C3: if some per-source-currency response carries a 4xx/5xx status,
the query operation fails with the `raise_for_status()` error carrying that
response's HTTP status code, and returns no table. -/
theorem upstream_http_error_fails_operation
    (inst : FX) (netR : Request → Nat × RatesBody) (netH : Request → Nat × HistoryBody)
    (d sa ea : String) (hd : parseDate d = true) (hsa : parseDate sa = true)
    (hea : parseDate ea = true) :
    ((∃ src ∈ strItems inst.source_currency,
        400 ≤ (netR (mkRatesReq (base_url ++ "/latest") inst.target_currency src)).1) →
      ∃ src ∈ strItems inst.source_currency,
        400 ≤ (netR (mkRatesReq (base_url ++ "/latest") inst.target_currency src)).1 ∧
        (inst.get_FX_latest netR).2.2 = .error (.httpError
          (netR (mkRatesReq (base_url ++ "/latest") inst.target_currency src)).1)) ∧
    ((∃ src ∈ strItems inst.source_currency,
        400 ≤ (netR (mkRatesReq (base_url ++ "/" ++ d) inst.target_currency src)).1) →
      ∃ src ∈ strItems inst.source_currency,
        400 ≤ (netR (mkRatesReq (base_url ++ "/" ++ d) inst.target_currency src)).1 ∧
        (inst.get_FX_date (.str d) netR).2.2 = .error (.httpError
          (netR (mkRatesReq (base_url ++ "/" ++ d) inst.target_currency src)).1)) ∧
    ((∃ src ∈ strItems inst.source_currency,
        400 ≤ (netH (mkHistoryReq inst.target_currency sa ea src)).1) →
      ∃ src ∈ strItems inst.source_currency,
        400 ≤ (netH (mkHistoryReq inst.target_currency sa ea src)).1 ∧
        (inst.get_FX_date_range (.str sa) (.str ea) netH).2.2 = .error (.httpError
          (netH (mkHistoryReq inst.target_currency sa ea src)).1)) := by
  refine ⟨?_, ?_, ?_⟩
  · intro h
    rcases runLoop_err (mkRatesReq (base_url ++ "/latest") inst.target_currency)
      flattenRates netR (strItems inst.source_currency) h with ⟨src, hmem, hst, hres⟩
    refine ⟨src, hmem, hst, ?_⟩
    show Except.map finalizeDF (runRatesLoop (base_url ++ "/latest") inst.target_currency
      netR (strItems inst.source_currency)).2 = _
    rw [show runRatesLoop (base_url ++ "/latest") inst.target_currency netR
        (strItems inst.source_currency) = runLoop (mkRatesReq (base_url ++ "/latest")
        inst.target_currency) flattenRates netR (strItems inst.source_currency) from rfl,
      hres]
    rfl
  · intro h
    rcases runLoop_err (mkRatesReq (base_url ++ "/" ++ d) inst.target_currency)
      flattenRates netR (strItems inst.source_currency) h with ⟨src, hmem, hst, hres⟩
    refine ⟨src, hmem, hst, ?_⟩
    simp only [FX.get_FX_date, if_pos hd]
    show Except.map finalizeDF (runRatesLoop (base_url ++ "/" ++ d) inst.target_currency
      netR (strItems inst.source_currency)).2 = _
    rw [show runRatesLoop (base_url ++ "/" ++ d) inst.target_currency netR
        (strItems inst.source_currency) = runLoop (mkRatesReq (base_url ++ "/" ++ d)
        inst.target_currency) flattenRates netR (strItems inst.source_currency) from rfl,
      hres]
    rfl
  · intro h
    rcases runLoop_err (mkHistoryReq inst.target_currency sa ea)
      flattenHistory netH (strItems inst.source_currency) h with ⟨src, hmem, hst, hres⟩
    refine ⟨src, hmem, hst, ?_⟩
    simp only [FX.get_FX_date_range, if_pos hsa, if_pos hea]
    show Except.map finalizeDF (runHistoryLoop inst.target_currency sa ea
      netH (strItems inst.source_currency)).2 = _
    rw [show runHistoryLoop inst.target_currency sa ea netH
        (strItems inst.source_currency) = runLoop (mkHistoryReq inst.target_currency sa ea)
        flattenHistory netH (strItems inst.source_currency) from rfl,
      hres]
    rfl

theorem upstream_http_error_fails_operation_witness :
    ∃ src ∈ strItems witInst.source_currency,
      400 ≤ (witNetR404 (mkRatesReq (base_url ++ "/latest") witInst.target_currency src)).1 ∧
      (witInst.get_FX_latest witNetR404).2.2 = .error (.httpError
        (witNetR404 (mkRatesReq (base_url ++ "/latest") witInst.target_currency src)).1) := by
  refine (upstream_http_error_fails_operation witInst witNetR404 witNetH500
    "2020-03-13" "2020-03-13" "2020-03-14" (by decide) (by decide) (by decide)).1 ?_
  exact ⟨"GBP", by simp [witInst, strItems], by simp [witNetR404]⟩

/-- Claim C8: `get_FX_date_range` performs no ordering check between `start_at`
and `end_at`: for any two well-formed dates — `start_at` later than `end_at`
included — the operation proceeds, and every issued request carries the two
values unchanged as its `start_at` and `end_at` parameters. -/
theorem date_range_no_start_end_order_check
    (inst : FX) (netH : Request → Nat × HistoryBody) (sa ea : String)
    (hsa : parseDate sa = true) (hea : parseDate ea = true)
    (hok : ∀ src ∈ strItems inst.source_currency,
      (netH (mkHistoryReq inst.target_currency sa ea src)).1 < 400) :
    (inst.get_FX_date_range (.str sa) (.str ea) netH).2.1 =
      (strItems inst.source_currency).map (mkHistoryReq inst.target_currency sa ea) ∧
    (∀ req ∈ (inst.get_FX_date_range (.str sa) (.str ea) netH).2.1,
      req.params.start_at = some sa ∧ req.params.end_at = some ea) ∧
    ∃ df, (inst.get_FX_date_range (.str sa) (.str ea) netH).2.2 = .ok df := by
  have hrun := runLoop_all_ok (mkHistoryReq inst.target_currency sa ea)
    flattenHistory netH (strItems inst.source_currency) hok
  have h1 : (inst.get_FX_date_range (.str sa) (.str ea) netH).2.1 =
      (strItems inst.source_currency).map (mkHistoryReq inst.target_currency sa ea) := by
    simp only [FX.get_FX_date_range, if_pos hsa, if_pos hea]
    show (runHistoryLoop inst.target_currency sa ea netH (strItems inst.source_currency)).1 = _
    rw [show runHistoryLoop inst.target_currency sa ea netH (strItems inst.source_currency) =
      runLoop (mkHistoryReq inst.target_currency sa ea) flattenHistory netH
        (strItems inst.source_currency) from rfl, hrun]
  refine ⟨h1, ?_, ?_⟩
  · intro req hreq
    rw [h1] at hreq
    rcases List.mem_map.mp hreq with ⟨src, _, rfl⟩
    exact ⟨rfl, rfl⟩
  · refine ⟨finalizeDF ((strItems inst.source_currency).map fun s =>
      flattenHistory (netH (mkHistoryReq inst.target_currency sa ea s)).2).flatten, ?_⟩
    simp only [FX.get_FX_date_range, if_pos hsa, if_pos hea]
    show Except.map finalizeDF (runHistoryLoop inst.target_currency sa ea netH
      (strItems inst.source_currency)).2 = _
    rw [show runHistoryLoop inst.target_currency sa ea netH (strItems inst.source_currency) =
      runLoop (mkHistoryReq inst.target_currency sa ea) flattenHistory netH
        (strItems inst.source_currency) from rfl, hrun]
    rfl

theorem date_range_no_order_check_witness :
    (witInst.get_FX_date_range (.str "2021-01-05") (.str "2020-01-01") witNetH).2.1 =
      (strItems witInst.source_currency).map
        (mkHistoryReq witInst.target_currency "2021-01-05" "2020-01-01") ∧
    (∀ req ∈ (witInst.get_FX_date_range (.str "2021-01-05") (.str "2020-01-01") witNetH).2.1,
      req.params.start_at = some "2021-01-05" ∧ req.params.end_at = some "2020-01-01") ∧
    ∃ df, (witInst.get_FX_date_range (.str "2021-01-05") (.str "2020-01-01") witNetH).2.2 =
      .ok df :=
  date_range_no_start_end_order_check witInst witNetH "2021-01-05" "2020-01-01"
    (by decide) (by decide) (fun src _ => by simp [witNetH])

/-! ## Decoding the pandas column-name split -/

theorem mk_data (s : String) : String.mk s.data = s := by
  cases s
  rfl

theorem pySplit_single {t : String} (ht : '.' ∉ t.data) :
    pySplit ("rates." ++ t) '.' = ["rates", t] := by
  unfold pySplit
  have hdata : ("rates." ++ t).data = ['.'].intercalate ["rates".data, t.data] := by
    simp [List.intercalate, List.intersperse]
  rw [hdata, List.splitOn_intercalate ["rates".data, t.data] '.' ?_ (by simp)]
  · simp [mk_data]
  · intro l hl
    rcases List.mem_cons.mp hl with rfl | hl
    · decide
    · rcases List.mem_cons.mp hl with rfl | hl
      · exact ht
      · simp at hl

theorem pySplit_double {d t : String} (hd : '.' ∉ d.data) (ht : '.' ∉ t.data) :
    pySplit ("rates." ++ d ++ "." ++ t) '.' = ["rates", d, t] := by
  unfold pySplit
  have hdata : ("rates." ++ d ++ "." ++ t).data =
      ['.'].intercalate ["rates".data, d.data, t.data] := by
    simp [List.intercalate, List.intersperse]
  rw [hdata, List.splitOn_intercalate ["rates".data, d.data, t.data] '.' ?_ (by simp)]
  · simp [mk_data]
  · intro l hl
    rcases List.mem_cons.mp hl with rfl | hl
    · decide
    · rcases List.mem_cons.mp hl with rfl | hl
      · exact hd
      · rcases List.mem_cons.mp hl with rfl | hl
        · exact ht
        · simp at hl

/-- With dot-free keys (ISO dates, ISO-4217 codes), the `melt`-and-split
flattening of a history body recovers exactly the (date key, target key, rate)
triples. -/
theorem flattenHistory_eq {b : HistoryBody}
    (hkeys : ∀ p ∈ b.rates, '.' ∉ p.1.data ∧ ∀ q ∈ p.2, '.' ∉ q.1.data) :
    flattenHistory b =
      (b.rates.map fun dp => dp.2.map fun tp => Row.mk dp.1 b.base tp.1 tp.2).flatten := by
  unfold flattenHistory
  congr 1
  apply List.map_congr_left
  intro dp hdp
  apply List.map_congr_left
  intro tp htp
  have h1 := (hkeys dp hdp).1
  have h2 := (hkeys dp hdp).2 tp htp
  simp [pySplit_double h1 h2]

theorem witDate_eval :
    (witInst.get_FX_date (.str "2020-03-14") witNetR).2.2 =
      .ok ⟨the_columns, [(0, witRow)]⟩ := by
  have hd : parseDate "2020-03-14" = true := by decide
  simp [FX.get_FX_date, hd, witInst, witNetR, strItems, runRatesLoop, runLoop,
    flattenRates, pySplit, finalizeDF, DataFrame.sort_values, DataFrame.reset_index,
    Except.map, witRow]
  decide

/-- Claim C2 fails on the code: `get_FX_date` takes each row's `date` from the
response body (`pd.json_normalize` keeps the body's `date` field as an
`id_var` of the melt), not from the caller-supplied argument.  Querying
`"2020-03-14"` against a transport whose body says `"2020-03-13"` returns a
row dated `"2020-03-13"`. -/
theorem get_FX_date_date_not_input_cx :
    (witInst.get_FX_date (.str "2020-03-14") witNetR).2.2 =
      .ok ⟨the_columns, [(0, witRow)]⟩ ∧
    witRow.date = "2020-03-13" ∧
    ("2020-03-13" : String) ≠ "2020-03-14" :=
  ⟨witDate_eval, rfl, by decide⟩

/-- Claim C2, amended: every row of a successful `get_FX_date` result carries
the `date` field of the response body; it equals the caller-supplied date
only when the upstream echoes that date back. -/
theorem get_FX_date_date_from_response_body
    (inst : FX) (d D : String) (net : Request → Nat × RatesBody)
    (hd : parseDate d = true) (hnet : ∀ req, (net req).2.date = D)
    (df : DataFrame) (h : (inst.get_FX_date (.str d) net).2.2 = .ok df) :
    ∀ p ∈ df.rows, p.2.date = D := by
  rcases (date_ok_shape h).2 with ⟨rows, hrun, rfl⟩
  have hinv := runLoop_ok_inv hrun
  have hrows : ∀ r ∈ rows, r.date = D := by
    intro r hr
    rw [hinv] at hr
    rcases List.mem_flatten.mp hr with ⟨l, hl, hrl⟩
    rcases List.mem_map.mp hl with ⟨src, _, rfl⟩
    rcases List.mem_map.mp hrl with ⟨tp, _, rfl⟩
    exact hnet _
  intro p hp
  have hmem : p.2 ∈ (finalizeDF rows).rows.map Prod.snd := List.mem_map_of_mem Prod.snd hp
  exact hrows _ ((finalizeDF_perm rows).mem_iff.mp hmem)

theorem get_FX_date_date_from_response_body_witness :
    ((0, witRow) : Nat × Row).2.date = "2020-03-13" :=
  get_FX_date_date_from_response_body witInst "2020-03-14" "2020-03-13" witNetR
    (by decide) (fun _ => rfl) ⟨the_columns, [(0, witRow)]⟩ witDate_eval
    (0, witRow) (by simp)

/-- Claim C6: a successful `get_FX_date_range` call flattens the two-level
`rates` mapping into exactly one row per (date key, target key) pair — the
rows of the result are a permutation (the final sort) of exactly those
triples, with the rate value carried through unchanged — and the resulting
columns are exactly the four output columns in order. -/
theorem date_range_flattens_one_row_per_pair
    (tgt : PyVal) (src sa ea : String) (net : Request → Nat × HistoryBody)
    (b : HistoryBody) (hsa : parseDate sa = true) (hea : parseDate ea = true)
    (hnet : net (mkHistoryReq tgt sa ea src) = (200, b))
    (hkeys : ∀ p ∈ b.rates, '.' ∉ p.1.data ∧ ∀ q ∈ p.2, '.' ∉ q.1.data) :
    ∃ df, (FX.get_FX_date_range ⟨.list [.str src], tgt⟩ (.str sa) (.str ea) net).2.2 =
        .ok df ∧
      df.cols = the_columns ∧
      (df.rows.map Prod.snd).Perm
        ((b.rates.map fun dp => dp.2.map fun tp =>
          Row.mk dp.1 b.base tp.1 tp.2).flatten) := by
  have hok : ∀ s ∈ strItems (PyVal.list [.str src]),
      (net (mkHistoryReq tgt sa ea s)).1 < 400 := by
    intro s hs
    simp [strItems] at hs
    subst hs
    rw [hnet]
    show (200 : Nat) < 400
    decide
  have hrun := runLoop_all_ok (mkHistoryReq tgt sa ea) flattenHistory net
    (strItems (PyVal.list [.str src])) hok
  refine ⟨finalizeDF (flattenHistory b), ?_, rfl, ?_⟩
  · simp only [FX.get_FX_date_range, if_pos hsa, if_pos hea]
    show Except.map finalizeDF
      (runHistoryLoop tgt sa ea net (strItems (PyVal.list [.str src]))).2 = _
    rw [show runHistoryLoop tgt sa ea net (strItems (PyVal.list [.str src])) =
      runLoop (mkHistoryReq tgt sa ea) flattenHistory net
        (strItems (PyVal.list [.str src])) from rfl, hrun]
    simp [Except.map, strItems, hnet]
  · exact (finalizeDF_perm (flattenHistory b)).trans (by rw [flattenHistory_eq hkeys])

theorem date_range_flattens_one_row_per_pair_witness :
    ∃ df, (FX.get_FX_date_range ⟨.list [.str "GBP"], .none⟩ (.str "2020-03-13")
        (.str "2020-03-14") witNetH).2.2 = .ok df ∧
      df.cols = the_columns ∧
      (df.rows.map Prod.snd).Perm
        ((([("2020-03-13", [("USD", (1 : Rat))])] : List (String × List (String × Rat))).map
          fun dp => dp.2.map fun tp => Row.mk dp.1 "GBP" tp.1 tp.2).flatten) :=
  date_range_flattens_one_row_per_pair .none "GBP" "2020-03-13" "2020-03-14" witNetH
    ⟨"GBP", [("2020-03-13", [("USD", 1)])]⟩ (by decide) (by decide) rfl (by decide)

end FxApi
